import Mathlib

/-!
Verification of the CAMT.053 statement/transaction extraction engine
(src/parser.ts) against its natural-language specification.

The parser operates on the JavaScript value produced by xml2js
(parseStringPromise with explicitArray: false, mergeAttrs: true): a mixture
of strings, plain objects and arrays, with a null/undefined sentinel produced
by the safe accessor. We embed that value universe as the inductive type
JVal below. JavaScript null and undefined are conflated into JVal.null: the
parser only ever distinguishes them through truthiness and through the
pattern (acc[key] !== undefined ? acc[key] : null), which identifies the two.

Member access v.k in JavaScript throws a TypeError when v is null or
undefined and otherwise never throws (string/array receivers give
undefined for the element names used here).  Sites where the source reads a
property of a value that could be null are modelled in the Except monad via
dot; sites of the shape (a && a.b), (a ? a.b : c) or accesses under an
if (a) guard never throw in JavaScript thanks to short-circuiting, and are
modelled by the total JVal.prop.
-/

/-- JavaScript value universe for xml2js parse trees plus the null/undefined
sentinel. Numbers never occur inside the trees handled by the parser (xml2js
produces only strings, objects and arrays), so they are not part of `JVal`;
numeric results live in `JNum`. -/
inductive JVal where
  | null : JVal
  | str : String → JVal
  | obj : List (String × JVal) → JVal
  | arr : List JVal → JVal
deriving Repr

/-- JavaScript truthiness restricted to the value universe: null/undefined and
the empty string are falsy; every object and array is truthy. -/
def JVal.truthy : JVal → Bool
  | .null => false
  | .str s => !s.isEmpty
  | .obj _ => true
  | .arr _ => true

/-- First binding of a key in an association list (xml2js objects have unique
keys, so first-match lookup is a faithful object model). -/
def lookupField : List (String × JVal) → String → Option JVal
  | [], _ => none
  | (k, v) :: rest, key => if k = key then some v else lookupField rest key

/-- Property access v[k] for a non-null receiver: objects look the key up,
strings and arrays yield undefined (modelled as null) for the element names
used by the parser.  For a null receiver JavaScript would throw; this total
function is used only where the source guards the access, the throwing sites
use `dot` below. -/
def JVal.prop : JVal → String → JVal
  | .obj fs, k => (lookupField fs k).getD .null
  | _, _ => .null

/-- Member access at the unguarded sites of the source: throws (as a typed
error) exactly when the receiver is null/undefined. -/
def dot (v : JVal) (k : String) : Except String JVal :=
  match v with
  | .null => .error "TypeError: Cannot read properties of null"
  | v => .ok (v.prop k)

/-- Nullish coalescing a ?? b. -/
def jsNvl : JVal → JVal → JVal
  | .null, b => b
  | a, _ => a

/-- Logical or a || b (first truthy wins). -/
def jsOr (a b : JVal) : JVal := if a.truthy then a else b

/-- The safe nested accessor `get` of the source:
path.reduce((acc, key) => (acc && acc[key] !== undefined ? acc[key] : null), obj) ?? null. -/
def get (v : JVal) (path : List String) : JVal :=
  path.foldl (fun acc k => if acc.truthy then acc.prop k else JVal.null) v

/-- Array normalisation Array.isArray(v) ? v : [v], used by the source at the
places where repetition is expected. -/
def toArray : JVal → List JVal
  | .arr es => es
  | v => [v]

/-- JavaScript numbers as they arise from parseFloat/parseInt here: NaN, the
two infinities, or a finite value. The finite case fin s e denotes the exact
decimal s * 10 ^ e as the literal spelled it (no normalisation). This is an
idealisation: the source's numbers are IEEE-754 binary doubles, so the real
parseFloat rounds binary-unrepresentable decimals, forgets the declared
scale, and overflows past the double range to Infinity. The parser performs
no arithmetic or comparison on amounts, so the idealisation is adequate for
the selection and presence properties proved in this file, but no theorem
here certifies decimal-precision preservation of the program, and the
concrete amounts appearing in counterexamples and witnesses are all exactly
representable as doubles. -/
inductive JNum where
  | nan : JNum
  | posInf : JNum
  | negInf : JNum
  | fin : ℤ → ℤ → JNum
deriving Repr, DecidableEq

/-- ECMAScript StrWhiteSpace characters skipped by parseFloat/parseInt. -/
def isJsWhitespace (c : Char) : Bool :=
  c = ' ' || c = '\t' || c = '\n' || c = '\r' || c = '\u000b' || c = '\u000c' ||
  c = '\u00A0' || c = '\u1680' || ('\u2000' ≤ c && c ≤ '\u200A') ||
  c = '\u2028' || c = '\u2029' || c = '\u202F' || c = '\u205F' ||
  c = '\u3000' || c = '\uFEFF'

/-- Value of a list of decimal digit characters. -/
def digitsToNat (ds : List Char) : ℕ :=
  ds.foldl (fun n c => 10 * n + (c.toNat - 48)) 0

/-- Exponent part of a decimal literal: an optional sign followed by digits;
an incomplete exponent contributes nothing (the longest valid prefix of the
literal stops before the e). -/
def expPart (t : List Char) : ℤ :=
  match t with
  | '-' :: u =>
    let ds := u.takeWhile Char.isDigit
    if ds.isEmpty then 0 else -(digitsToNat ds : ℤ)
  | '+' :: u =>
    let ds := u.takeWhile Char.isDigit
    if ds.isEmpty then 0 else (digitsToNat ds : ℤ)
  | u =>
    let ds := u.takeWhile Char.isDigit
    if ds.isEmpty then 0 else (digitsToNat ds : ℤ)

/-- ECMAScript parseFloat: skip whitespace, optional sign, then the longest
prefix that is a StrDecimalLiteral (digits, optional fraction, optional
exponent, or Infinity); NaN when no prefix qualifies. The value is kept as
the exact decimal the literal spells (see `JNum`); the final ECMAScript step
of rounding that value to the nearest IEEE-754 double (with overflow to
Infinity for literals such as 1e999) is deliberately not modelled. -/
def parseFloat (s : String) : JNum :=
  let cs := s.data.dropWhile isJsWhitespace
  let sgn : Bool := match cs with | '-' :: _ => true | _ => false
  let cs1 : List Char := match cs with
    | '-' :: t => t
    | '+' :: t => t
    | t => t
  if "Infinity".data.isPrefixOf cs1 then
    (if sgn then JNum.negInf else JNum.posInf)
  else
    let intDs := cs1.takeWhile Char.isDigit
    let r1 := cs1.drop intDs.length
    let fracDs : List Char := match r1 with
      | '.' :: t => t.takeWhile Char.isDigit
      | _ => []
    let r2 : List Char := match r1 with
      | '.' :: t => t.drop (t.takeWhile Char.isDigit).length
      | _ => r1
    if intDs.isEmpty && fracDs.isEmpty then JNum.nan
    else
      let sig : ℤ := (digitsToNat (intDs ++ fracDs) : ℤ)
      let expVal : ℤ := match r2 with
        | 'e' :: t => expPart t
        | 'E' :: t => expPart t
        | _ => 0
      JNum.fin (if sgn then -sig else sig) (expVal - (fracDs.length : ℤ))

/-- ECMAScript parseInt with radix 10: skip whitespace, optional sign, longest
digit prefix; NaN when there is no digit. The integer is kept exactly; the
source's result is a double, which rounds integers beyond 2 ^ 53 — a range
no judged theorem depends on. -/
def parseIntTen (s : String) : JNum :=
  let cs := s.data.dropWhile isJsWhitespace
  let sgn : Bool := match cs with | '-' :: _ => true | _ => false
  let cs1 : List Char := match cs with
    | '-' :: t => t
    | '+' :: t => t
    | t => t
  let ds := cs1.takeWhile Char.isDigit
  if ds.isEmpty then JNum.nan
  else JNum.fin (if sgn then -(digitsToNat ds : ℤ) else (digitsToNat ds : ℤ)) 0

mutual
/-- JavaScript String(v) coercion on the value universe (null prints as
"null", objects as "[object Object]", arrays join their elements with commas,
null elements joining as the empty string). -/
def stringOf : JVal → String
  | .null => "null"
  | .str s => s
  | .obj _ => "[object Object]"
  | .arr es => joinVals "," es

/-- Array.prototype.join with an explicit separator, with the element
coercion JavaScript uses (null/undefined become the empty string). -/
def joinVals (sep : String) (es : List JVal) : String :=
  match es with
  | [] => ""
  | [v] => (match v with | .null => "" | w => stringOf w)
  | v :: rest => (match v with | .null => "" | w => stringOf w) ++ sep ++ joinVals sep rest
end

/-- Match of the regular expression \d{4}-\d{2}-\d{2} at the head of the
character list. -/
def dateAt : List Char → Option String
  | a :: b :: c :: d :: e :: f :: g :: k :: i :: j :: _ =>
    if a.isDigit && b.isDigit && c.isDigit && d.isDigit && e = '-' &&
       f.isDigit && g.isDigit && k = '-' && i.isDigit && j.isDigit
    then some (String.mk [a, b, c, d, e, f, g, k, i, j]) else none
  | _ => none

/-- First match of \d{4}-\d{2}-\d{2} anywhere in the character list (the
scan JavaScript's String.prototype.match performs). -/
def firstDate : List Char → Option String
  | [] => none
  | c :: rest =>
    match dateAt (c :: rest) with
    | some s => some s
    | none => firstDate rest

mutual
/-- Computable size of a value, measuring the descent bound for the
date-extraction recursion. -/
def JVal.jsize : JVal → ℕ
  | .null => 1
  | .str _ => 1
  | .obj fs => 1 + jsizeFields fs
  | .arr es => 1 + jsizeElems es

/-- Total size of an object's field values. -/
def jsizeFields : List (String × JVal) → ℕ
  | [] => 0
  | (_, v) :: rest => v.jsize + jsizeFields rest

/-- Total size of an array's elements. -/
def jsizeElems : List JVal → ℕ
  | [] => 0
  | v :: rest => v.jsize + jsizeElems rest
end

theorem jsize_pos (v : JVal) : 1 ≤ v.jsize := by
  cases v <;> simp [JVal.jsize]

theorem lookupField_le_jsizeFields :
    ∀ (fs : List (String × JVal)) (k : String) (w : JVal),
      lookupField fs k = some w → w.jsize ≤ jsizeFields fs := by
  intro fs k
  induction fs with
  | nil => intro w h; simp [lookupField] at h
  | cons p rest ih =>
    intro w h
    obtain ⟨k', v'⟩ := p
    simp only [lookupField] at h
    split at h
    · cases h
      simp only [jsizeFields]
      omega
    · have := ih w h
      simp only [jsizeFields]
      omega

theorem lookupField_jsize_lt {fs : List (String × JVal)} {k : String} {w : JVal}
    (h : lookupField fs k = some w) : w.jsize < (JVal.obj fs).jsize := by
  have := lookupField_le_jsizeFields fs k w h
  simp only [JVal.jsize]
  omega

/-- Fuelled worker for extractDate. The recursion of the source descends
into the Dt (else DtTm) child of an object; the fuel is a bound on the
descent depth, structurally decreasing so that the definition computes by
kernel reduction. `extractDateF_fuel` shows any fuel of at least the value
size gives the same answer, so `extractDate` below is fuel-independent. -/
def extractDateF : ℕ → JVal → Option String
  | 0, _ => none
  | fuel + 1, v =>
    match v with
    | .null => none
    | .str s => if s.isEmpty then none else firstDate s.data
    | .arr _ => none
    | .obj fs =>
      let d := (lookupField fs "Dt").getD .null
      if d.truthy then extractDateF fuel d
      else
        let e := (lookupField fs "DtTm").getD .null
        if e.truthy then extractDateF fuel e else none

theorem extractDateF_fuel : ∀ (k : ℕ) (v : JVal) (n m : ℕ),
    v.jsize ≤ k → v.jsize ≤ n → v.jsize ≤ m → extractDateF n v = extractDateF m v := by
  intro k
  induction k using Nat.strong_induction_on with
  | _ k ih =>
    intro v n m hk hn hm
    have h1 := jsize_pos v
    obtain ⟨n', rfl⟩ : ∃ n', n = n' + 1 := ⟨n - 1, by omega⟩
    obtain ⟨m', rfl⟩ : ∃ m', m = m' + 1 := ⟨m - 1, by omega⟩
    cases v with
    | null => rfl
    | str s => rfl
    | arr es => rfl
    | obj fs =>
      simp only [extractDateF]
      by_cases htd : ((lookupField fs "Dt").getD JVal.null).truthy
      · obtain ⟨w, hw⟩ : ∃ w, lookupField fs "Dt" = some w := by
          cases hld : lookupField fs "Dt" with
          | none => rw [hld] at htd; simp [JVal.truthy] at htd
          | some w => exact ⟨w, rfl⟩
        have hb : ((lookupField fs "Dt").getD JVal.null).jsize < (JVal.obj fs).jsize := by
          rw [hw]
          exact lookupField_jsize_lt hw
        simp only [htd, if_true]
        exact ih (k - 1) (by omega) _ n' m' (by omega) (by omega) (by omega)
      · simp only [htd, Bool.false_eq_true, if_false]
        by_cases hte : ((lookupField fs "DtTm").getD JVal.null).truthy
        · obtain ⟨w, hw⟩ : ∃ w, lookupField fs "DtTm" = some w := by
            cases hld : lookupField fs "DtTm" with
            | none => rw [hld] at hte; simp [JVal.truthy] at hte
            | some w => exact ⟨w, rfl⟩
          have hb : ((lookupField fs "DtTm").getD JVal.null).jsize < (JVal.obj fs).jsize := by
            rw [hw]
            exact lookupField_jsize_lt hw
          simp only [hte, if_true]
          exact ih (k - 1) (by omega) _ n' m' (by omega) (by omega) (by omega)
        · simp only [hte, Bool.false_eq_true, if_false]

/-- extractDate of the source: a string yields its first YYYY-MM-DD match;
an object recurses into a truthy Dt child, else a truthy DtTm child; all
other values (including falsy ones) yield null. -/
def extractDate (v : JVal) : Option String := extractDateF v.jsize v

/-- extractAmount of the source: falsy input yields null; a string is fed to
parseFloat; an object with a truthy text content "_" feeds that content to
parseFloat (attributes ignored); everything else yields null. Note a failed
parse of a truthy string yields NaN, which is not null. -/
def extractAmount : JVal → Option JNum
  | .null => none
  | .str s => if s.isEmpty then none else some (parseFloat s)
  | .arr _ => none
  | .obj fs =>
    let u := (lookupField fs "_").getD .null
    if u.truthy then some (parseFloat (stringOf u)) else none

/-- One backtracking step of the regular expression
<Document[^>]+xmlns="([^"]+)": with rest the characters following
"<Document", try the split in which [^>]+ has length j; succeed when
xmlns=" follows and a nonempty capture closed by a quote follows that. -/
def xmlnsAttempt (rest : List Char) (j : ℕ) : Option String :=
  let tl := rest.drop j
  if "xmlns=\"".data.isPrefixOf tl then
    let afterX := tl.drop 7
    let cap := afterX.takeWhile (fun c => c ≠ '"')
    if cap.isEmpty then none
    else if cap.length < afterX.length then some (String.mk cap) else none
  else none

/-- Greedy backtracking over the length j of [^>]+, longest first, starting
from the length of the maximal >-free run. -/
def xmlnsSearch (rest : List Char) : ℕ → Option String
  | 0 => none
  | j + 1 =>
    match xmlnsAttempt rest (j + 1) with
    | some s => some s
    | none => xmlnsSearch rest j

/-- Scan of xml.match(/<Document[^>]+xmlns="([^"]+)"/): at each position, if
the literal <Document matches, run the greedy attribute search; the first
position where the whole pattern matches yields the capture. -/
def detectNamespaceAux : List Char → Option String
  | [] => none
  | c :: cs =>
    if "<Document".data.isPrefixOf (c :: cs) then
      let rest := (c :: cs).drop 9
      match xmlnsSearch rest ((rest.takeWhile (fun ch => ch ≠ '>')).length) with
      | some s => some s
      | none => detectNamespaceAux cs
    else detectNamespaceAux cs

/-- detectNamespace of the source. -/
def detectNamespace (xml : String) : Option String :=
  detectNamespaceAux xml.data

/-- The static namespace-to-XSD lookup table of the source. -/
def NAMESPACE_TO_XSD : List (String × String) := [
  ("urn:iso:std:iso:20022:tech:xsd:camt.053.001.02", "camt.053.001.02.xsd"),
  ("urn:iso:std:iso:20022:tech:xsd:camt.053.001.08", "camt.053.001.08.xsd"),
  ("urn:iso:std:iso:20022:tech:xsd:camt.053.001.13", "camt.053.001.13.xsd")]

/-- Output transaction record. Fields typed string-or-null in the source but
populated from untyped tree accesses are modelled as JVal (with JVal.null for
null); date is a matched date string or null; amount a JavaScript number or
null; type the literal "credit" or "debit" or null. -/
structure Camt053Transaction where
  date : Option String
  amount : Option JNum
  currency : JVal
  type : Option String
  counterpartyName : JVal
  counterpartyAccountIBAN : JVal
  description : JVal
  descriptionAdditional : Option String
  endToEndReference : JVal
  remittanceReference : JVal
  purpose : JVal
deriving Repr

/-- Output statement record. -/
structure Camt053Statement where
  statementTitle : String
  accountHolder : JVal
  accountIBAN : JVal
  currency : String
  statementDate : String
  sequenceNumber : Option JNum
  openingBalance : Option JNum
  closingBalance : Option JNum
  numberOfCredits : Option JNum
  totalCredits : Option JNum
  numberOfDebits : Option JNum
  totalDebits : Option JNum
  transactions : List Camt053Transaction
deriving Repr

/-- The entry's transaction-detail blocks before the synthetic-null
substitution: lines 224-228 of the source (NtryDtls/TxDtls normalised to an
array when the guard ntryDtls && ntryDtls.TxDtls holds, else empty). -/
def txDtlsListOf (ntry : JVal) : List JVal :=
  let ntryDtls := get ntry ["NtryDtls"]
  if ntryDtls.truthy && (ntryDtls.prop "TxDtls").truthy then
    match ntryDtls.prop "TxDtls" with
    | .arr es => es
    | t => [t]
  else []

/-- The list actually mapped over: a single synthetic null detail when there
are no detail blocks (lines 230-232). -/
def txArrOf (ntry : JVal) : List JVal :=
  if (txDtlsListOf ntry).length = 0 then [JVal.null] else txDtlsListOf ntry

/-- Per-detail transaction construction (the body of the inner map, source
lines 233-341). txDtls is a real detail block or the synthetic null. -/
def mapTxDtls (stmt ntry : JVal) (ntryDate : Option String) (ntryAmount : Option JNum)
    (ntryType : Option String) (ntryCurrency : JVal) (txDtls : JVal) : Camt053Transaction :=
  let cp0 : JVal × JVal :=
    if txDtls.truthy && (txDtls.prop "RltdPties").truthy then
      if ntryType = some "credit" then
        (jsNvl (get txDtls ["RltdPties", "Dbtr", "Nm"])
           (jsNvl (get txDtls ["RltdPties", "Dbtr", "Pty", "Nm"]) JVal.null),
         jsNvl (get txDtls ["RltdPties", "DbtrAcct", "Id", "IBAN"])
           (jsNvl (get txDtls ["RltdPties", "DbtrAcct", "Id", "Othr", "Id"]) JVal.null))
      else if ntryType = some "debit" then
        (jsNvl (get txDtls ["RltdPties", "Cdtr", "Nm"])
           (jsNvl (get txDtls ["RltdPties", "Cdtr", "Pty", "Nm"]) JVal.null),
         jsNvl (get txDtls ["RltdPties", "CdtrAcct", "Id", "IBAN"])
           (jsNvl (get txDtls ["RltdPties", "CdtrAcct", "Id", "Othr", "Id"]) JVal.null))
      else (JVal.null, JVal.null)
    else (JVal.null, JVal.null)
  let counterpartyName : JVal :=
    if cp0.1.truthy then cp0.1
    else jsNvl (get ntry ["AcctSvcrRef"])
           (jsNvl (get ntry ["NtryRef"])
             (jsNvl (if txDtls.truthy then get txDtls ["Refs", "Prtry", "Ref"] else JVal.null)
               JVal.null))
  let counterpartyAccountIBAN : JVal :=
    if cp0.2.truthy then cp0.2
    else jsNvl (if txDtls.truthy then get txDtls ["Refs", "Prtry", "Ref"] else JVal.null)
           (jsNvl (get ntry ["NtryRef"]) JVal.null)
  let e2e0 : JVal :=
    if txDtls.truthy then jsNvl (get txDtls ["Refs", "EndToEndId"]) JVal.null else JVal.null
  let endToEndReference : JVal :=
    if e2e0.truthy then e2e0
    else jsNvl (if txDtls.truthy then get txDtls ["Refs", "ClrSysRef"] else JVal.null)
           (jsNvl (if txDtls.truthy then get txDtls ["Refs", "Prtry", "Ref"] else JVal.null)
             (jsNvl (get ntry ["NtryRef"]) JVal.null))
  let strd : JVal := if txDtls.truthy then get txDtls ["RmtInf", "Strd"] else JVal.null
  let remit0 : JVal :=
    if strd.truthy && (strd.prop "CdtrRefInf").truthy && ((strd.prop "CdtrRefInf").prop "Ref").truthy
    then (strd.prop "CdtrRefInf").prop "Ref" else JVal.null
  let remittanceReference : JVal :=
    if !remit0.truthy && strd.truthy then
      jsNvl (get strd ["RfrdDocInf", "Nb"])
        (jsNvl (get strd ["RfrdDocInf", "Tp", "CdOrPrtry", "Cd"]) JVal.null)
    else remit0
  let purpose : JVal :=
    if txDtls.truthy then jsNvl (get txDtls ["Purp", "Cd"]) JVal.null else JVal.null
  let ustrd : JVal := if txDtls.truthy then get txDtls ["RmtInf", "Ustrd"] else JVal.null
  let addtlNtryInf := get ntry ["AddtlNtryInf"]
  let addtlTxInf : JVal := if txDtls.truthy then get txDtls ["AddtlTxInf"] else JVal.null
  let descriptionParts : List JVal :=
    (if ustrd.truthy then [ustrd] else []) ++
    (if strd.truthy then (if (strd.prop "AddtlRmtInf").truthy then [strd.prop "AddtlRmtInf"] else []) else []) ++
    (if addtlNtryInf.truthy then [addtlNtryInf] else []) ++
    (if addtlTxInf.truthy then [addtlTxInf] else [])
  let descriptionParts2 : List JVal :=
    if descriptionParts.length = 0 then
      let fallbackDesc :=
        jsNvl (get ntry ["AcctSvcrRef"])
          (jsNvl (if txDtls.truthy then get txDtls ["Refs", "InstrId"] else JVal.null)
            (jsNvl (get stmt ["Id"]) JVal.null))
      if fallbackDesc.truthy then [fallbackDesc] else []
    else descriptionParts
  let filteredParts := descriptionParts2.filter JVal.truthy
  let description : JVal := match filteredParts with | [] => JVal.null | p :: _ => p
  let descriptionAdditional : Option String :=
    if 1 < filteredParts.length then some (joinVals " | " filteredParts.tail) else none
  let date : Option String :=
    if txDtls.truthy then (extractDate (get txDtls ["BookgDt"])).orElse (fun _ => ntryDate)
    else ntryDate
  let amount : Option JNum :=
    if txDtls.truthy then (extractAmount (get txDtls ["Amt"])).orElse (fun _ => ntryAmount)
    else ntryAmount
  let currencyVal : JVal := if txDtls.truthy then get txDtls ["Amt", "Ccy"] else JVal.null
  let txCurrency := jsOr currencyVal ntryCurrency
  { date := date, amount := amount, currency := txCurrency, type := ntryType,
    counterpartyName := counterpartyName, counterpartyAccountIBAN := counterpartyAccountIBAN,
    description := description, descriptionAdditional := descriptionAdditional,
    endToEndReference := endToEndReference, remittanceReference := remittanceReference,
    purpose := purpose }

/-- Is typeof v === 'object' (null included, per JavaScript). -/
def JVal.isObjectTypeof : JVal → Bool
  | .obj _ => true
  | .arr _ => true
  | .null => true
  | .str _ => false

/-- Entry-level baseline currency (source lines 217-222): the statement
currency, overridden by the entry amount's Ccy attribute only when the
statement currency is empty and the attribute is truthy. -/
def ntryCurrencyOf (currency : String) (ntry : JVal) : JVal :=
  let amtObj := get ntry ["Amt"]
  if currency.isEmpty && amtObj.truthy && amtObj.isObjectTypeof && (amtObj.prop "Ccy").truthy
  then amtObj.prop "Ccy" else JVal.str currency

/-- Entry-level direction (source line 215-216). -/
def ntryTypeOf (ntry : JVal) : Option String :=
  match get ntry ["CdtDbtInd"] with
  | .str s => if s = "CRDT" then some "credit" else if s = "DBIT" then some "debit" else none
  | _ => none

/-- Per-entry flattening (body of the flatMap, source lines 211-342): compute
the entry baseline, then map the detail blocks (or the synthetic null). -/
def mapNtry (stmt : JVal) (currency : String) (ntry : JVal) : List Camt053Transaction :=
  let ntryDate := extractDate (get ntry ["BookgDt"])
  let ntryAmount := extractAmount (get ntry ["Amt"])
  let ntryType := ntryTypeOf ntry
  let ntryCurrency := ntryCurrencyOf currency ntry
  (txArrOf ntry).map (mapTxDtls stmt ntry ntryDate ntryAmount ntryType ntryCurrency)

/-- Truthiness filter on a JavaScript string-or-null (if (x) on the result of
extractDate: null and the empty string are dropped). -/
def truthyStr : Option String → Option String
  | some s => if s.isEmpty then none else some s
  | none => none

/-- Dates of the balance blocks, document order, falsy entries dropped
(source lines 152-153: bals.map(bal => extractDate(get(bal, [Dt, Dt])))
.filter(Boolean)). -/
def balanceDatesOf (balV : JVal) : List String :=
  ((toArray balV).map (fun bal => extractDate (get bal ["Dt", "Dt"]))).filterMap truthyStr

/-- Inner loop of the transaction-date fallback (source lines 166-169): for
each detail block in order, the detail booking date, else the entry booking
date; the first truthy result wins. -/
def dtlsDateSearch (ntry : JVal) : List JVal → Option String
  | [] => none
  | t :: rest =>
    match truthyStr ((extractDate (get t ["BookgDt"])).orElse
        (fun _ => extractDate (get ntry ["BookgDt"]))) with
    | some d => some d
    | none => dtlsDateSearch ntry rest

/-- Per-entry step of the transaction-date fallback (source lines 162-174):
search the detail blocks, then fall back to the entry-level booking date. -/
def entryDateOf (ntry : JVal) : Option String :=
  match dtlsDateSearch ntry (txDtlsListOf ntry) with
  | some d => some d
  | none => truthyStr (extractDate (get ntry ["BookgDt"]))

/-- First entry (document order) yielding a transaction date (the outer for
loop of source lines 162-175). -/
def firstEntryDateOf : List JVal → Option String
  | [] => none
  | n :: rest =>
    match entryDateOf n with
    | some d => some d
    | none => firstEntryDateOf rest

/-- Statement-date resolution (source lines 145-178). The first three tiers
are pure; the balance tier reads stmt.Bal and the entry tier reads stmt.Ntry,
each a throwing member access evaluated lazily, only when every earlier tier
failed. -/
def resolveStatementDate (stmt : JVal) : Except String String := do
  match ((extractDate (get stmt ["FrToDt", "ToDtTm"])).orElse
      (fun _ => extractDate (get stmt ["FrToDt", "ToDt"]))).orElse
      (fun _ => extractDate (get stmt ["CreDtTm"])) with
  | some d => pure d
  | none =>
    let balV ← dot stmt "Bal"
    match (if balV.truthy then (balanceDatesOf balV).getLast? else none) with
    | some d => pure d
    | none =>
      let ntryV ← dot stmt "Ntry"
      match (if ntryV.truthy then firstEntryDateOf (toArray ntryV) else none) with
      | some d => pure d
      | none => pure ""

/-- Balance assignment loop (source lines 184-188): for each balance block in
order, a type code OPBD overwrites the opening balance and CLBD the closing
balance with extractAmount(bal.Amt); bal.Amt is read only when the code
matches, so the member access is reached only for object-shaped blocks. -/
def balLoop : List JVal → Option JNum × Option JNum → Except String (Option JNum × Option JNum)
  | [], acc => pure acc
  | bal :: rest, acc =>
    match get bal ["Tp", "CdOrPrtry", "Cd"] with
    | .str s =>
      if s = "OPBD" then do
        let amt ← dot bal "Amt"
        balLoop rest (extractAmount amt, acc.2)
      else if s = "CLBD" then do
        let amt ← dot bal "Amt"
        balLoop rest (acc.1, extractAmount amt)
      else balLoop rest acc
    | _ => balLoop rest acc

/-- Currency normalisation (source lines 132-140): a bare string stays, a
truthy value whose text content "_" is a string yields that content, anything
else the empty string. -/
def currencyStringOf (currencyVal : JVal) : String :=
  match currencyVal with
  | .str s => s
  | v => if v.truthy then (match v.prop "_" with | .str s => s | _ => "") else ""

/-- Per-statement mapping (body of stmts.map, source lines 122-362). -/
def mapStatement (stmt : JVal) (idx : ℕ) : Except String Camt053Statement := do
  let accountHolder := jsNvl (get stmt ["Acct", "Ownr", "Nm"])
    (jsNvl (get stmt ["Acct", "Ownr", "Id", "OrgId", "Othr", "Id"]) JVal.null)
  let accountIBAN := jsNvl (get stmt ["Acct", "Id", "IBAN"])
    (jsNvl (get stmt ["Acct", "Id", "Othr", "Id"]) JVal.null)
  let currency := currencyStringOf (get stmt ["Acct", "Ccy"])
  let seqRaw := jsNvl (get stmt ["LglSeqNb"]) (get stmt ["ElctrncSeqNb"])
  let sequenceNumber := if seqRaw.truthy then some (parseIntTen (stringOf seqRaw)) else none
  let statementDate ← resolveStatementDate stmt
  let balV ← dot stmt "Bal"
  let oc ← if balV.truthy then balLoop (toArray balV) (none, none) else pure (none, none)
  let summV ← dot stmt "TxsSummry"
  let cred : Option JNum × Option JNum :=
    if summV.truthy && (summV.prop "TtlCdtNtries").truthy then
      (some (parseIntTen (stringOf (jsNvl (get stmt ["TxsSummry", "TtlCdtNtries", "NbOfNtries"]) (JVal.str "0")))),
       extractAmount (get stmt ["TxsSummry", "TtlCdtNtries", "Sum"]))
    else (none, none)
  let deb : Option JNum × Option JNum :=
    if summV.truthy && (summV.prop "TtlDbtNtries").truthy then
      (some (parseIntTen (stringOf (jsNvl (get stmt ["TxsSummry", "TtlDbtNtries", "NbOfNtries"]) (JVal.str "0")))),
       extractAmount (get stmt ["TxsSummry", "TtlDbtNtries", "Sum"]))
    else (none, none)
  let ntryV ← dot stmt "Ntry"
  let ntries := if ntryV.truthy then toArray ntryV else []
  let transactions := (ntries.map (mapNtry stmt currency)).flatten
  pure {
    statementTitle := "Statement " ++ toString (idx + 1) ++ ": " ++ currency ++ " Account",
    accountHolder := accountHolder, accountIBAN := accountIBAN,
    currency := currency, statementDate := statementDate,
    sequenceNumber := sequenceNumber,
    openingBalance := oc.1, closingBalance := oc.2,
    numberOfCredits := cred.1, totalCredits := cred.2,
    numberOfDebits := deb.1, totalDebits := deb.2,
    transactions := transactions }

/-- stmts.map((stmt, idx) => ...) in the Except monad, index threaded, first
failure propagated. -/
def mapStatements : List JVal → ℕ → Except String (List Camt053Statement)
  | [], _ => pure []
  | s :: rest, idx => do
    let st ← mapStatement s idx
    let sts ← mapStatements rest (idx + 1)
    pure (st :: sts)

/-- Stmt normalisation of source lines 113-119: an array is taken as is (even
empty), a truthy single node becomes a singleton, anything else aborts. -/
def stmtListOf (container : JVal) : Option (List JVal) :=
  match container.prop "Stmt" with
  | .arr es => some es
  | v => if v.truthy then some [v] else none

/-- Top-level parseCamt053. The external collaborators (libxmljs2 schema
validation and the xml2js tree builder) are passed as parameters: validate
answers whether the document text validates against the named XSD, valErr
gives the validator's message when it does not, and parseXml is the tree the
XML parser returns for the document text.  The three throw sites of
validateXmlWithXsd (invalid XML, invalid XSD, validation failure) are
collapsed into the validation-failure branch. -/
def parseCamt053 (validate : String → String → Bool) (valErr : String → String → String)
    (parseXml : String → JVal) (xml : String) : Except String (List Camt053Statement) := do
  match detectNamespace xml with
  | none => Except.error "Unsupported or missing CAMT.053 namespace"
  | some ns =>
    match NAMESPACE_TO_XSD.lookup ns with
    | none => Except.error "Unsupported or missing CAMT.053 namespace"
    | some xsdFile =>
      if !validate xml xsdFile then
        Except.error ("XSD validation failed: " ++ valErr xml xsdFile)
      else
        let xmlObj := parseXml xml
        let docRoot := xmlObj.prop "Document"
        if !docRoot.truthy then Except.error "Missing <Document> root"
        else
          let stmtContainer := jsOr (docRoot.prop "BkToCstmrStmt") (docRoot.prop "BankToCustomerStatementV13")
          if !stmtContainer.truthy then Except.error "Missing statement container"
          else
            match stmtListOf stmtContainer with
            | none => Except.error "No <Stmt> found"
            | some stmts => mapStatements stmts 0

/-- Entry list of a statement as the source computes it (lines 206-209). -/
def entriesOf (stmt : JVal) : List JVal :=
  if (stmt.prop "Ntry").truthy then toArray (stmt.prop "Ntry") else []

/-- Balance-block list of a statement as the source computes it (lines
182-183), empty when stmt.Bal is falsy. -/
def balListOf (stmt : JVal) : List JVal :=
  if (stmt.prop "Bal").truthy then toArray (stmt.prop "Bal") else []

/-- Type code of one balance block. -/
def balCodeOf (bal : JVal) : JVal := get bal ["Tp", "CdOrPrtry", "Cd"]

/-- Pure form of the balance loop for one target code: the amount of the last
block in document order whose code equals it (last match wins), starting
from init. -/
def lastBalAmt (code : String) (l : List JVal) (init : Option JNum) : Option JNum :=
  l.foldl (fun acc bal =>
    match balCodeOf bal with
    | .str s => if s = code then extractAmount (bal.prop "Amt") else acc
    | _ => acc) init

/-- Pure form of the statement-date resolution: the five tiers in order, then
the empty string. -/
def pureStatementDate (stmt : JVal) : String :=
  (((((extractDate (get stmt ["FrToDt", "ToDtTm"])).orElse
      (fun _ => extractDate (get stmt ["FrToDt", "ToDt"]))).orElse
      (fun _ => extractDate (get stmt ["CreDtTm"]))).orElse
      (fun _ => if (stmt.prop "Bal").truthy then (balanceDatesOf (stmt.prop "Bal")).getLast? else none)).orElse
      (fun _ => if (stmt.prop "Ntry").truthy then firstEntryDateOf (toArray (stmt.prop "Ntry")) else none)).getD ""

/-- Pure characterisation of the per-statement mapping on a non-null
statement node (every field of `mapStatement` as a pure expression). -/
def pureStatement (stmt : JVal) (idx : ℕ) : Camt053Statement :=
  let currency := currencyStringOf (get stmt ["Acct", "Ccy"])
  let seqRaw := jsNvl (get stmt ["LglSeqNb"]) (get stmt ["ElctrncSeqNb"])
  { statementTitle := "Statement " ++ toString (idx + 1) ++ ": " ++ currency ++ " Account",
    accountHolder := jsNvl (get stmt ["Acct", "Ownr", "Nm"])
      (jsNvl (get stmt ["Acct", "Ownr", "Id", "OrgId", "Othr", "Id"]) JVal.null),
    accountIBAN := jsNvl (get stmt ["Acct", "Id", "IBAN"])
      (jsNvl (get stmt ["Acct", "Id", "Othr", "Id"]) JVal.null),
    currency := currency,
    statementDate := pureStatementDate stmt,
    sequenceNumber := if seqRaw.truthy then some (parseIntTen (stringOf seqRaw)) else none,
    openingBalance := lastBalAmt "OPBD" (balListOf stmt) none,
    closingBalance := lastBalAmt "CLBD" (balListOf stmt) none,
    numberOfCredits :=
      if (stmt.prop "TxsSummry").truthy && ((stmt.prop "TxsSummry").prop "TtlCdtNtries").truthy then
        some (parseIntTen (stringOf (jsNvl (get stmt ["TxsSummry", "TtlCdtNtries", "NbOfNtries"]) (JVal.str "0"))))
      else none,
    totalCredits :=
      if (stmt.prop "TxsSummry").truthy && ((stmt.prop "TxsSummry").prop "TtlCdtNtries").truthy then
        extractAmount (get stmt ["TxsSummry", "TtlCdtNtries", "Sum"])
      else none,
    numberOfDebits :=
      if (stmt.prop "TxsSummry").truthy && ((stmt.prop "TxsSummry").prop "TtlDbtNtries").truthy then
        some (parseIntTen (stringOf (jsNvl (get stmt ["TxsSummry", "TtlDbtNtries", "NbOfNtries"]) (JVal.str "0"))))
      else none,
    totalDebits :=
      if (stmt.prop "TxsSummry").truthy && ((stmt.prop "TxsSummry").prop "TtlDbtNtries").truthy then
        extractAmount (get stmt ["TxsSummry", "TtlDbtNtries", "Sum"])
      else none,
    transactions := ((entriesOf stmt).map (mapNtry stmt currency)).flatten }

theorem dot_ok {v : JVal} (h : v ≠ JVal.null) (k : String) : dot v k = .ok (v.prop k) := by
  cases v with
  | null => exact absurd rfl h
  | str s => rfl
  | obj fs => rfl
  | arr es => rfl

theorem exc_bind_ok {α β : Type} (a : α) (f : α → Except String β) :
    (Except.ok a >>= f) = f a := rfl

theorem get_null (path : List String) : get JVal.null path = JVal.null := by
  induction path with
  | nil => rfl
  | cons k rest ih => exact ih

theorem balLoop_eq (l : List JVal) (acc : Option JNum × Option JNum) :
    balLoop l acc = .ok (lastBalAmt "OPBD" l acc.1, lastBalAmt "CLBD" l acc.2) := by
  induction l generalizing acc with
  | nil => rfl
  | cons bal rest ih =>
    have hnn : ∀ s, get bal ["Tp", "CdOrPrtry", "Cd"] = JVal.str s → bal ≠ JVal.null := by
      intro s hs hb
      rw [hb, get_null] at hs
      cases hs
    simp only [balLoop, lastBalAmt, List.foldl_cons, balCodeOf] at ih ⊢
    cases hc : get bal ["Tp", "CdOrPrtry", "Cd"] with
    | str s =>
      by_cases hO : s = "OPBD"
      · subst hO
        simp [dot_ok (hnn _ hc), exc_bind_ok, ih]
      · by_cases hC : s = "CLBD"
        · subst hC
          simp [hO, dot_ok (hnn _ hc), exc_bind_ok, ih]
        · simp [hO, hC, ih]
    | null => simpa using ih acc
    | obj fs => simpa using ih acc
    | arr es => simpa using ih acc

theorem resolveStatementDate_eq (stmt : JVal) (h : stmt ≠ JVal.null) :
    resolveStatementDate stmt = .ok (pureStatementDate stmt) := by
  unfold resolveStatementDate pureStatementDate
  cases h1 : ((extractDate (get stmt ["FrToDt", "ToDtTm"])).orElse
      (fun _ => extractDate (get stmt ["FrToDt", "ToDt"]))).orElse
      (fun _ => extractDate (get stmt ["CreDtTm"])) with
  | some d => simp [Option.orElse, pure, Except.pure]
  | none =>
    simp only [dot_ok h, exc_bind_ok, Option.orElse, Option.getD]
    cases h2 : (if (stmt.prop "Bal").truthy then (balanceDatesOf (stmt.prop "Bal")).getLast? else none) with
    | some d => simp [pure, Except.pure]
    | none =>
      simp only [dot_ok h, exc_bind_ok]
      cases h3 : (if (stmt.prop "Ntry").truthy then firstEntryDateOf (toArray (stmt.prop "Ntry")) else none) with
      | some d => simp [pure, Except.pure]
      | none => simp [pure, Except.pure]

theorem mapStatement_eq (stmt : JVal) (h : stmt ≠ JVal.null) (idx : ℕ) :
    mapStatement stmt idx = .ok (pureStatement stmt idx) := by
  unfold mapStatement pureStatement
  rw [resolveStatementDate_eq stmt h]
  simp only [dot_ok h, exc_bind_ok, entriesOf, balListOf]
  by_cases hb : (stmt.prop "Bal").truthy
  · simp [hb, balLoop_eq, exc_bind_ok, pure, Except.pure, apply_ite Prod.fst, apply_ite Prod.snd]
  · simp [hb, lastBalAmt, exc_bind_ok, pure, Except.pure, apply_ite Prod.fst, apply_ite Prod.snd]

mutual
/-- The value contains no null anywhere: the well-formedness property of
every tree xml2js produces (element content is strings, objects and arrays
only). The null sentinel arises from accessors, never inside an input tree. -/
def JVal.noNull : JVal → Bool
  | .null => false
  | .str _ => true
  | .obj fs => noNullFields fs
  | .arr es => noNullElems es

/-- All field values of an object are null-free. -/
def noNullFields : List (String × JVal) → Bool
  | [] => true
  | (_, v) :: rest => v.noNull && noNullFields rest

/-- All elements of an array are null-free. -/
def noNullElems : List JVal → Bool
  | [] => true
  | v :: rest => v.noNull && noNullElems rest
end

theorem noNull_ne_null {v : JVal} (h : v.noNull = true) : v ≠ JVal.null := by
  intro he
  rw [he] at h
  simp [JVal.noNull] at h

theorem noNullFields_lookup {fs : List (String × JVal)} {k : String} {w : JVal}
    (h : noNullFields fs = true) (hl : lookupField fs k = some w) : w.noNull = true := by
  induction fs with
  | nil => simp [lookupField] at hl
  | cons p rest ih =>
    obtain ⟨k', v'⟩ := p
    simp only [noNullFields, Bool.and_eq_true] at h
    simp only [lookupField] at hl
    split at hl
    · cases hl; exact h.1
    · exact ih h.2 hl

theorem noNull_prop {v : JVal} (h : v.noNull = true) (k : String) :
    v.prop k = JVal.null ∨ (v.prop k).noNull = true := by
  cases v with
  | null => exact Or.inl rfl
  | str s => exact Or.inl rfl
  | arr es => exact Or.inl rfl
  | obj fs =>
    simp only [JVal.prop]
    cases hl : lookupField fs k with
    | none => exact Or.inl rfl
    | some w =>
      exact Or.inr (noNullFields_lookup (by simpa [JVal.noNull] using h) hl)

theorem noNullElems_mem {es : List JVal} {v : JVal}
    (h : noNullElems es = true) (hm : v ∈ es) : v.noNull = true := by
  induction es with
  | nil => cases hm
  | cons e rest ih =>
    simp only [noNullElems, Bool.and_eq_true] at h
    rcases List.mem_cons.mp hm with h1 | h1
    · cases h1; exact h.1
    · exact ih h.2 h1

theorem noNull_toArray {v : JVal} (h : v.noNull = true) {e : JVal} (he : e ∈ toArray v) :
    e.noNull = true := by
  cases v with
  | arr es => exact noNullElems_mem (by simpa [JVal.noNull] using h) he
  | null => simp [toArray] at he; cases he; exact h
  | str s => simp [toArray] at he; cases he; exact h
  | obj fs => simp [toArray] at he; cases he; exact h

theorem mapStatements_total (l : List JVal) (idx : ℕ) (h : ∀ v ∈ l, v ≠ JVal.null) :
    ∃ r, mapStatements l idx = .ok r := by
  induction l generalizing idx with
  | nil => exact ⟨[], rfl⟩
  | cons s rest ih =>
    obtain ⟨r, hr⟩ := ih (idx + 1) (fun v hv => h v (List.mem_cons_of_mem _ hv))
    refine ⟨pureStatement s idx :: r, ?_⟩
    simp [mapStatements, mapStatement_eq s (h s (List.mem_cons_self _ _)) idx, hr, exc_bind_ok,
      pure, Except.pure]

/-- Namespace detection composed with the static lookup: the XSD resource
the document's declared namespace selects, when supported. -/
def nsFileOf (xml : String) : Option String :=
  (detectNamespace xml).bind (fun n => NAMESPACE_TO_XSD.lookup n)

/-- The fatal document-level conditions of the specification, as predicates
of the inputs: missing or unsupported namespace; schema-validation failure;
missing statement container (the Document root or the BkToCstmrStmt /
BankToCustomerStatementV13 container absent or empty); missing repeating
Stmt elements entirely. -/
def c3Fatal (validate : String → String → Bool) (parseXml : String → JVal) (xml : String) : Bool :=
  match nsFileOf xml with
  | none => true
  | some f =>
    !validate xml f ||
    (let docRoot := (parseXml xml).prop "Document"
     !docRoot.truthy ||
     (let container := jsOr (docRoot.prop "BkToCstmrStmt") (docRoot.prop "BankToCustomerStatementV13")
      !container.truthy || (stmtListOf container).isNone))

/-- Statement-date tier (a) of the specification: period end date-time. -/
def tierPeriodEndDateTime (stmt : JVal) : Option String :=
  extractDate (get stmt ["FrToDt", "ToDtTm"])

/-- Statement-date tier (b): period end date. -/
def tierPeriodEndDate (stmt : JVal) : Option String :=
  extractDate (get stmt ["FrToDt", "ToDt"])

/-- Statement-date tier (c): statement creation date-time. -/
def tierCreationDateTime (stmt : JVal) : Option String :=
  extractDate (get stmt ["CreDtTm"])

/-- Statement-date tier (d) as the code actually has it: the last balance
date in document order (the claim said the latest, i.e. maximum). -/
def tierLastBalanceDate (stmt : JVal) : Option String :=
  if (stmt.prop "Bal").truthy then (balanceDatesOf (stmt.prop "Bal")).getLast? else none

/-- Statement-date tier (e) as the code actually has it: the first date found
scanning entries in document order, per entry the detail booking dates first
(each falling back to the entry booking date), then the entry booking date
(the claim said the earliest, i.e. minimum). -/
def tierFirstEntryDate (stmt : JVal) : Option String :=
  if (stmt.prop "Ntry").truthy then firstEntryDateOf (toArray (stmt.prop "Ntry")) else none

/-- Currency normalisation as the specification words it: a bare string is
taken as is, an attributed value-holder contributes its text content, and
anything else (including absence) yields the empty string. -/
def specCurrencyNorm : JVal → String
  | .str s => s
  | .obj fs =>
    (match lookupField fs "_" with
     | some (.str s) => s
     | _ => "")
  | _ => ""

/-- Ordered description candidates of the specification: unstructured
remittance text, structured remittance's additional-info text, the entry's
additional free-text, the detail's additional free-text, keeping only
non-empty (truthy) entries in that order. -/
def specDescCandidates (ntry txDtls : JVal) : List JVal :=
  ([(if txDtls.truthy then get txDtls ["RmtInf", "Ustrd"] else JVal.null),
    (if txDtls.truthy then get txDtls ["RmtInf", "Strd", "AddtlRmtInf"] else JVal.null),
    get ntry ["AddtlNtryInf"],
    (if txDtls.truthy then get txDtls ["AddtlTxInf"] else JVal.null)]).filter JVal.truthy

/-- Fallback reference of the specification: the first available of the
entry's account-servicer reference, the detail's instruction id, the
statement's own identifier. -/
def specFallbackRef (stmt ntry txDtls : JVal) : JVal :=
  jsNvl (get ntry ["AcctSvcrRef"])
    (jsNvl (if txDtls.truthy then get txDtls ["Refs", "InstrId"] else JVal.null)
      (jsNvl (get stmt ["Id"]) JVal.null))

/-- Splitting rule of the specification: the first element becomes the
description, the remaining ones are joined with " | " into the additional
description (absent when none remain). -/
def specSplit (l : List JVal) : JVal × Option String :=
  match l with
  | [] => (JVal.null, none)
  | p :: rest => (p, if rest.isEmpty then none else some (joinVals " | " rest))

/-- Description and additional description of the specification: split the
candidate list; when it is empty, split the at-most-one-element list built
from the fallback reference (dropped when empty). -/
def specDescriptionPair (stmt ntry txDtls : JVal) : JVal × Option String :=
  let cands := specDescCandidates ntry txDtls
  if cands.isEmpty then
    specSplit (if (specFallbackRef stmt ntry txDtls).truthy then [specFallbackRef stmt ntry txDtls] else [])
  else specSplit cands

/-- Transaction date of the specification: the detail's own booking date,
falling back to the entry baseline when the detail has none. -/
def specTxDate (ntry txDtls : JVal) : Option String :=
  if txDtls.truthy then
    (extractDate (get txDtls ["BookgDt"])).orElse (fun _ => extractDate (get ntry ["BookgDt"]))
  else extractDate (get ntry ["BookgDt"])

/-- Transaction amount of the specification: the detail's own amount, falling
back to the entry baseline when the detail has none. -/
def specTxAmount (ntry txDtls : JVal) : Option JNum :=
  if txDtls.truthy then
    (extractAmount (get txDtls ["Amt"])).orElse (fun _ => extractAmount (get ntry ["Amt"]))
  else extractAmount (get ntry ["Amt"])

/-- Entry baseline currency of the specification: the statement currency, or
only when the statement currency is empty, the entry amount's own currency
attribute (the statement currency, i.e. the empty string, when that is also
unavailable). -/
def specBaselineCurrency (currency : String) (ntry : JVal) : JVal :=
  if currency.isEmpty then
    (if (get ntry ["Amt", "Ccy"]).truthy then get ntry ["Amt", "Ccy"] else JVal.str currency)
  else JVal.str currency

/-- Transaction currency of the specification: the detail's own
amount-currency attribute first, then the entry baseline. -/
def specTxCurrency (currency : String) (ntry txDtls : JVal) : JVal :=
  let own := if txDtls.truthy then get txDtls ["Amt", "Ccy"] else JVal.null
  if own.truthy then own else specBaselineCurrency currency ntry

/-- Does a balance block carry the given type code. -/
def hasCode (code : String) (b : JVal) : Bool :=
  match balCodeOf b with
  | .str s => s = code
  | _ => false

theorem get_eq_foldl (v : JVal) (p : List String) :
    get v p = p.foldl (fun acc k => if acc.truthy then acc.prop k else JVal.null) v := rfl

theorem get_snoc (v : JVal) (p : List String) (k : String) :
    get v (p ++ [k]) = if (get v p).truthy then (get v p).prop k else JVal.null := by
  rw [get_eq_foldl, List.foldl_append]
  rfl

theorem currencyStringOf_eq_spec (v : JVal) : currencyStringOf v = specCurrencyNorm v := by
  cases v with
  | null => rfl
  | str s => rfl
  | arr es => rfl
  | obj fs =>
    simp only [currencyStringOf, specCurrencyNorm, JVal.truthy, JVal.prop, if_true]
    cases hl : lookupField fs "_" with
    | none => rfl
    | some w => cases w <;> rfl

theorem ntryCurrencyOf_eq_spec (currency : String) (ntry : JVal) :
    ntryCurrencyOf currency ntry = specBaselineCurrency currency ntry := by
  unfold ntryCurrencyOf specBaselineCurrency
  have hg : get ntry ["Amt", "Ccy"] =
      if (get ntry ["Amt"]).truthy then (get ntry ["Amt"]).prop "Ccy" else JVal.null := by
    simpa using get_snoc ntry ["Amt"] "Ccy"
  by_cases hc : currency.isEmpty
  · rw [hg]
    cases hA : get ntry ["Amt"] with
    | null => simp [JVal.truthy, hc]
    | str s =>
      by_cases hs : s.isEmpty <;>
        simp [JVal.truthy, JVal.prop, JVal.isObjectTypeof, hc, hs]
    | obj fs => simp [JVal.truthy, JVal.isObjectTypeof, hc]
    | arr es => simp [JVal.truthy, JVal.isObjectTypeof, hc, JVal.prop]
  · simp [hc]

theorem filter_four (a b c d : JVal) :
    (if a.truthy then [a] else []) ++ (if b.truthy then [b] else []) ++
    (if c.truthy then [c] else []) ++ (if d.truthy then [d] else []) =
    ([a, b, c, d].filter JVal.truthy) := by
  by_cases ha : a.truthy <;> by_cases hb : b.truthy <;> by_cases hc : c.truthy <;>
    by_cases hd : d.truthy <;> simp [List.filter, ha, hb, hc, hd]

theorem mem_filter_truthy {l : List JVal} {x : JVal} (h : x ∈ l.filter JVal.truthy) :
    x.truthy = true :=
  (List.mem_filter.mp h).2

theorem nested_if_singleton (sd sa : JVal) :
    (if sd.truthy then (if sa.truthy then [sa] else []) else []) =
    (if (if sd.truthy then sa else JVal.null).truthy then [if sd.truthy then sa else JVal.null] else []) := by
  cases h : sd.truthy
  · simp [h]
    rfl
  · simp [h]

theorem desc_split_code (parts : List JVal) (fb : JVal)
    (hall : ∀ x ∈ parts, x.truthy = true) :
    ((match List.filter JVal.truthy
        (if parts.length = 0 then (if fb.truthy then [fb] else []) else parts) with
      | [] => JVal.null
      | p :: _ => p),
     (if 1 < (List.filter JVal.truthy
        (if parts.length = 0 then (if fb.truthy then [fb] else []) else parts)).length then
        some (joinVals " | " (List.filter JVal.truthy
          (if parts.length = 0 then (if fb.truthy then [fb] else []) else parts)).tail)
      else none)) =
    (if parts.isEmpty then specSplit (if fb.truthy then [fb] else []) else specSplit parts) := by
  cases parts with
  | nil =>
    cases hf : fb.truthy
    · simp [List.filter, specSplit]
    · simp [List.filter, hf, specSplit]
  | cons p rest =>
    have hfilter : List.filter JVal.truthy (p :: rest) = p :: rest :=
      List.filter_eq_self.mpr hall
    cases rest with
    | nil => simp [hfilter, specSplit]
    | cons q rs => simp [hfilter, specSplit]

theorem mapTxDtls_desc (stmt ntry : JVal) (ntryDate : Option String) (ntryAmount : Option JNum)
    (ntryType : Option String) (ntryCurrency : JVal) (txDtls : JVal) :
    ((mapTxDtls stmt ntry ntryDate ntryAmount ntryType ntryCurrency txDtls).description,
     (mapTxDtls stmt ntry ntryDate ntryAmount ntryType ntryCurrency txDtls).descriptionAdditional) =
    specDescriptionPair stmt ntry txDtls := by
  have hstrd : (if txDtls.truthy then get txDtls ["RmtInf", "Strd", "AddtlRmtInf"] else JVal.null) =
      (if (if txDtls.truthy then get txDtls ["RmtInf", "Strd"] else JVal.null).truthy
       then (if txDtls.truthy then get txDtls ["RmtInf", "Strd"] else JVal.null).prop "AddtlRmtInf"
       else JVal.null) := by
    by_cases ht : txDtls.truthy
    · simp only [ht, if_true]
      simpa using get_snoc txDtls ["RmtInf", "Strd"] "AddtlRmtInf"
    · simp only [ht]
      rfl
  simp only [mapTxDtls, specDescriptionPair, specDescCandidates, specFallbackRef]
  rw [hstrd, nested_if_singleton, filter_four]
  exact desc_split_code _ _ (fun x hx => mem_filter_truthy hx)

theorem mapNtry_length (stmt : JVal) (currency : String) (ntry : JVal) :
    (mapNtry stmt currency ntry).length = max 1 (txDtlsListOf ntry).length := by
  unfold mapNtry txArrOf
  by_cases h : (txDtlsListOf ntry).length = 0
  · simp [h]
  · simp only [h, if_false, List.length_map]
    omega

theorem mapNtry_getElem (stmt : JVal) (currency : String) (ntry : JVal) (i : ℕ) :
    (mapNtry stmt currency ntry)[i]? =
    ((txArrOf ntry)[i]?).map
      (mapTxDtls stmt ntry (extractDate (get ntry ["BookgDt"])) (extractAmount (get ntry ["Amt"]))
        (ntryTypeOf ntry) (ntryCurrencyOf currency ntry)) := by
  unfold mapNtry
  rw [List.getElem?_map]

theorem lastBalAmt_cons (code : String) (b : JVal) (l : List JVal) (init : Option JNum) :
    lastBalAmt code (b :: l) init =
    lastBalAmt code l (if hasCode code b then extractAmount (b.prop "Amt") else init) := by
  unfold lastBalAmt hasCode
  rw [List.foldl_cons]
  cases balCodeOf b with
  | str s => by_cases hs : s = code <;> simp [hs]
  | null => simp
  | obj fs => simp
  | arr es => simp

theorem lastBalAmt_append (code : String) (l1 l2 : List JVal) (init : Option JNum) :
    lastBalAmt code (l1 ++ l2) init = lastBalAmt code l2 (lastBalAmt code l1 init) := by
  unfold lastBalAmt
  rw [List.foldl_append]

theorem lastBalAmt_nomatch (code : String) (l : List JVal) (init : Option JNum)
    (h : ∀ b ∈ l, hasCode code b = false) : lastBalAmt code l init = init := by
  induction l with
  | nil => rfl
  | cons b rest ih =>
    rw [lastBalAmt_cons, h b (List.mem_cons_self _ _)]
    exact ih (fun x hx => h x (List.mem_cons_of_mem _ hx))

theorem jsOr_cases (a b : JVal) : jsOr a b = a ∨ jsOr a b = b := by
  unfold jsOr
  split
  · exact Or.inl rfl
  · exact Or.inr rfl

theorem prop_of_null (k : String) : JVal.prop JVal.null k = JVal.null := rfl

theorem stmtListOf_nonnull {c : JVal} (hc : c = JVal.null ∨ c.noNull = true) {l : List JVal}
    (hs : stmtListOf c = some l) : ∀ v ∈ l, v ≠ JVal.null := by
  have hp : c.prop "Stmt" = JVal.null ∨ (c.prop "Stmt").noNull = true := by
    rcases hc with h | h
    · left; rw [h]; rfl
    · exact noNull_prop h "Stmt"
  intro v hv he
  subst he
  unfold stmtListOf at hs
  split at hs
  · rename_i es heq
    injection hs with h
    subst h
    rcases hp with hnull | hnn
    · rw [heq] at hnull; cases hnull
    · rw [heq] at hnn
      have hmem := noNullElems_mem (by simpa [JVal.noNull] using hnn) hv
      simp [JVal.noNull] at hmem
  · split at hs
    · rename_i ht
      injection hs with h
      subst h
      simp only [List.mem_singleton] at hv
      rw [← hv] at ht
      simp [JVal.truthy] at ht
    · cases hs

/-- C3: parseCamt053 yields a typed document-level error, and then no
statement list at all, exactly when one of the fatal conditions holds
(missing or unsupported namespace, schema-validation failure, missing
document root or statement container, missing repeating Stmt elements); and
every such error carries one of the human-readable causes below, the
validation failure carrying the validator's message. The hypothesis is that
the tree the XML parser returns is null-free, which xml2js guarantees. -/
theorem c3_fatal_iff (validate : String → String → Bool) (valErr : String → String → String)
    (parseXml : String → JVal) (xml : String) (hw : (parseXml xml).noNull = true) :
    ((parseCamt053 validate valErr parseXml xml).toOption = none ↔
      c3Fatal validate parseXml xml = true) ∧
    (∀ e, parseCamt053 validate valErr parseXml xml = .error e →
      e = "Unsupported or missing CAMT.053 namespace" ∨
      (∃ m, e = "XSD validation failed: " ++ m) ∨
      e = "Missing <Document> root" ∨ e = "Missing statement container" ∨
      e = "No <Stmt> found") := by
  unfold parseCamt053 c3Fatal nsFileOf
  cases hns : detectNamespace xml with
  | none => simp [Except.toOption]
  | some n =>
    cases hl : NAMESPACE_TO_XSD.lookup n with
    | none => simp [hl, Except.toOption]
    | some f =>
      simp only [hl, Option.some_bind]
      cases hv : validate xml f with
      | false => simp [hv, Except.toOption]
      | true =>
        simp only [hv, Bool.not_true, Bool.false_eq_true, if_false, Bool.true_eq_false]
        set docRoot := (parseXml xml).prop "Document" with hdr
        by_cases hd : docRoot.truthy
        · simp only [hd, Bool.not_true, Bool.false_eq_true, if_false]
          set container := jsOr (docRoot.prop "BkToCstmrStmt") (docRoot.prop "BankToCustomerStatementV13") with hco
          by_cases hct : container.truthy
          · simp only [hct, Bool.not_true, Bool.false_eq_true, if_false]
            cases hsl : stmtListOf container with
            | none => simp [Except.toOption]
            | some stmts =>
              have hcnn : container = JVal.null ∨ container.noNull = true := by
                have hdrn : docRoot = JVal.null ∨ docRoot.noNull = true := noNull_prop hw "Document"
                rcases jsOr_cases (docRoot.prop "BkToCstmrStmt") (docRoot.prop "BankToCustomerStatementV13") with h | h
                · rw [hco, h]
                  rcases hdrn with h2 | h2
                  · left; rw [h2]; rfl
                  · exact noNull_prop h2 "BkToCstmrStmt"
                · rw [hco, h]
                  rcases hdrn with h2 | h2
                  · left; rw [h2]; rfl
                  · exact noNull_prop h2 "BankToCustomerStatementV13"
              obtain ⟨r, hr⟩ := mapStatements_total stmts 0 (stmtListOf_nonnull hcnn hsl)
              simp [hr, Except.toOption]
          · simp [hct, Except.toOption]
        · simp [hd, Except.toOption]


/-- C1: for any statement subtree (a non-null node, as every xml2js element
is), the per-statement mapping succeeds and the transactions list has length
the sum over that statement's entries of max(1, number of transaction-detail
blocks of the entry); an entry with zero detail blocks hence contributes
exactly one transaction, and a statement with no entries yields the empty
transactions list. -/
theorem c1_transactions_length (stmt : JVal) (h : stmt ≠ JVal.null) (idx : ℕ) :
    ∃ s, mapStatement stmt idx = Except.ok s ∧
      s.transactions.length =
        ((entriesOf stmt).map (fun n => max 1 (txDtlsListOf n).length)).sum ∧
      (entriesOf stmt = [] → s.transactions = []) := by
  refine ⟨pureStatement stmt idx, mapStatement_eq stmt h idx, ?_, ?_⟩
  · simp only [pureStatement, List.length_flatten, List.map_map]
    induction entriesOf stmt with
    | nil => rfl
    | cons n rest ih => simp only [List.map_cons, List.sum_cons, Function.comp,
        mapNtry_length, ih]
  · intro he
    simp [pureStatement, he]

/-- C1 witness tree: one two-detail entry plus one entry without details. -/
def c1Entry1 : JVal := JVal.obj [
  ("Amt", JVal.obj [("_", JVal.str "100.00"), ("Ccy", JVal.str "EUR")]),
  ("CdtDbtInd", JVal.str "CRDT"),
  ("NtryDtls", JVal.obj [("TxDtls", JVal.arr [
    JVal.obj [("Amt", JVal.obj [("_", JVal.str "40.00")])],
    JVal.obj [("Amt", JVal.obj [("_", JVal.str "60.00")])]])])]

/-- C1 witness tree, second entry. -/
def c1Entry2 : JVal := JVal.obj [
  ("Amt", JVal.str "5.00"), ("CdtDbtInd", JVal.str "DBIT")]

/-- C1 witness tree: a statement with the two entries above. -/
def c1Example : JVal := JVal.obj [
  ("Acct", JVal.obj [("Ccy", JVal.str "EUR")]),
  ("Ntry", JVal.arr [c1Entry1, c1Entry2])]

theorem c1_witness :
    ∃ s, mapStatement c1Example 0 = Except.ok s ∧
      s.transactions.length =
        ((entriesOf c1Example).map (fun n => max 1 (txDtlsListOf n).length)).sum ∧
      (entriesOf c1Example = [] → s.transactions = []) :=
  c1_transactions_length c1Example (fun h => JVal.noConfusion h) 0

/-- C2 counterexample: a statement whose only date sources are two balance
dates, the later one listed first. Tiers (a), (b), (c) are absent, so the
balance tier decides; the claim's tier (d) (the latest, i.e. maximum, of all
balance dates) would give 2024-12-31, but the code returns the last balance
date in document order, 2024-01-01. -/
def c2Example : JVal := JVal.obj [("Bal", JVal.arr [
  JVal.obj [("Dt", JVal.obj [("Dt", JVal.str "2024-12-31")])],
  JVal.obj [("Dt", JVal.obj [("Dt", JVal.str "2024-01-01")])]])]

theorem c2_counterexample :
    tierPeriodEndDateTime c2Example = none ∧
    tierPeriodEndDate c2Example = none ∧
    tierCreationDateTime c2Example = none ∧
    balanceDatesOf (c2Example.prop "Bal") = ["2024-12-31", "2024-01-01"] ∧
    (mapStatement c2Example 0).toOption.map (fun s => s.statementDate) = some "2024-01-01" ∧
    "2024-01-01" ≠ "2024-12-31" := by
  exact ⟨rfl, rfl, rfl, rfl, rfl, by decide⟩

/-- C2 amended: the statement date is resolved by trying, in this order,
(a) period end date-time, (b) period end date, (c) statement creation
date-time, (d) the last balance date in document order (not the maximum),
(e) the first date found scanning entries in document order (per entry the
detail booking dates, each falling back to the entry booking date, then the
entry booking date; not the minimum), and (f) the empty string; the first
tier that yields a date determines the result. -/
theorem c2_amended_statement_date (stmt : JVal) (h : stmt ≠ JVal.null) (idx : ℕ) :
    ∃ s, mapStatement stmt idx = Except.ok s ∧
      s.statementDate =
        (((((tierPeriodEndDateTime stmt).orElse (fun _ => tierPeriodEndDate stmt)).orElse
            (fun _ => tierCreationDateTime stmt)).orElse
            (fun _ => tierLastBalanceDate stmt)).orElse
            (fun _ => tierFirstEntryDate stmt)).getD "" :=
  ⟨pureStatement stmt idx, mapStatement_eq stmt h idx, rfl⟩

theorem c2_amended_witness :
    ∃ s, mapStatement c2Example 0 = Except.ok s ∧
      s.statementDate =
        (((((tierPeriodEndDateTime c2Example).orElse (fun _ => tierPeriodEndDate c2Example)).orElse
            (fun _ => tierCreationDateTime c2Example)).orElse
            (fun _ => tierLastBalanceDate c2Example)).orElse
            (fun _ => tierFirstEntryDate c2Example)).getD "" :=
  c2_amended_statement_date c2Example (fun h => JVal.noConfusion h) 0

/-- C4: once the top-level preconditions hold, per-statement and per-entry
field resolution is total: mapping any null-free statement node (and any
list of them) succeeds, whatever the tree shape of its balances, entries or
transaction-detail blocks; no single field's failure aborts anything (the
throwing member accesses of the source are all reached with non-null
receivers, and every field computation is a total function into
absent-capable types). A statement node need only be non-null itself; xml2js
trees contain no null anywhere. -/
theorem c4_resolution_total :
    (∀ stmt : JVal, stmt ≠ JVal.null → ∀ idx, ∃ s, mapStatement stmt idx = Except.ok s) ∧
    (∀ l : List JVal, (∀ v ∈ l, v ≠ JVal.null) → ∀ idx, ∃ r, mapStatements l idx = Except.ok r) :=
  ⟨fun stmt h idx => ⟨pureStatement stmt idx, mapStatement_eq stmt h idx⟩,
   fun l h idx => mapStatements_total l idx h⟩

theorem c4_witness : ∃ s, mapStatement (JVal.obj []) 0 = Except.ok s :=
  c4_resolution_total.1 (JVal.obj []) (fun h => JVal.noConfusion h) 0

/-- C5: the output currency is a string by construction (the field's type;
never null or absent), and equals the account-level currency field
normalised as the specification words it: a bare string as is, an attributed
value-holder's text content, and the empty string when the field is absent
or has neither shape. -/
theorem c5_currency (stmt : JVal) (h : stmt ≠ JVal.null) (idx : ℕ) :
    ∃ s, mapStatement stmt idx = Except.ok s ∧
      s.currency = specCurrencyNorm (get stmt ["Acct", "Ccy"]) :=
  ⟨pureStatement stmt idx, mapStatement_eq stmt h idx, by
    simp [pureStatement, currencyStringOf_eq_spec]⟩

/-- C5 witness tree: currency as an attributed value-holder. -/
def c5Example : JVal := JVal.obj [
  ("Acct", JVal.obj [("Ccy", JVal.obj [("_", JVal.str "HRK"), ("Ccy", JVal.str "x")])])]

theorem c5_witness :
    ∃ s, mapStatement c5Example 0 = Except.ok s ∧
      s.currency = specCurrencyNorm (get c5Example ["Acct", "Ccy"]) :=
  c5_currency c5Example (fun h => JVal.noConfusion h) 0

/-- C6: every transaction a statement emits comes from mapNtry, and for each
detail index the emitted description pair follows the specification's
candidate order and splitting rule: candidates are unstructured remittance
text, structured remittance additional-info, entry free-text, detail
free-text, kept when non-empty, in that order; the first becomes the
description and the rest join with " | "; an empty candidate list falls back
to the single first-available reference (entry account-servicer reference,
detail instruction id, statement id), subject to the same splitting rule. -/
theorem c6_description_split :
    (∀ stmt : JVal, stmt ≠ JVal.null → ∀ idx, ∃ s, mapStatement stmt idx = Except.ok s ∧
      s.transactions =
        ((entriesOf stmt).map (mapNtry stmt (currencyStringOf (get stmt ["Acct", "Ccy"])))).flatten) ∧
    (∀ (stmt : JVal) (currency : String) (ntry : JVal) (i : ℕ),
      ((mapNtry stmt currency ntry)[i]?).map (fun t => (t.description, t.descriptionAdditional)) =
      ((txArrOf ntry)[i]?).map (specDescriptionPair stmt ntry)) := by
  constructor
  · intro stmt h idx
    exact ⟨pureStatement stmt idx, mapStatement_eq stmt h idx, rfl⟩
  · intro stmt currency ntry i
    rw [mapNtry_getElem, Option.map_map]
    cases h : (txArrOf ntry)[i]? with
    | none => rfl
    | some td => simp [Function.comp, mapTxDtls_desc]

/-- C6 witness tree: an entry with unstructured remittance text and entry
free-text on a single detail. -/
def c6Entry : JVal := JVal.obj [
  ("AddtlNtryInf", JVal.str "entry text"),
  ("NtryDtls", JVal.obj [("TxDtls", JVal.obj [
    ("RmtInf", JVal.obj [("Ustrd", JVal.str "pay invoice 1")]),
    ("AddtlTxInf", JVal.str "detail text")])])]

theorem c6_witness :
    ∃ s, mapStatement (JVal.obj [("Ntry", c6Entry)]) 0 = Except.ok s ∧
      s.transactions =
        ((entriesOf (JVal.obj [("Ntry", c6Entry)])).map
          (mapNtry (JVal.obj [("Ntry", c6Entry)])
            (currencyStringOf (get (JVal.obj [("Ntry", c6Entry)]) ["Acct", "Ccy"])))).flatten :=
  c6_description_split.1 (JVal.obj [("Ntry", c6Entry)]) (fun h => JVal.noConfusion h) 0

theorem mapTxDtls_fields (stmt : JVal) (currency : String) (ntry txDtls : JVal) :
    (mapTxDtls stmt ntry (extractDate (get ntry ["BookgDt"])) (extractAmount (get ntry ["Amt"]))
      (ntryTypeOf ntry) (ntryCurrencyOf currency ntry) txDtls).date = specTxDate ntry txDtls ∧
    (mapTxDtls stmt ntry (extractDate (get ntry ["BookgDt"])) (extractAmount (get ntry ["Amt"]))
      (ntryTypeOf ntry) (ntryCurrencyOf currency ntry) txDtls).amount = specTxAmount ntry txDtls ∧
    (mapTxDtls stmt ntry (extractDate (get ntry ["BookgDt"])) (extractAmount (get ntry ["Amt"]))
      (ntryTypeOf ntry) (ntryCurrencyOf currency ntry) txDtls).currency =
      specTxCurrency currency ntry txDtls := by
  refine ⟨rfl, rfl, ?_⟩
  simp only [mapTxDtls, specTxCurrency, jsOr, ntryCurrencyOf_eq_spec]

/-- C7: for every detail index of an entry (real or synthetic detail), the
emitted transaction's date, amount and currency prefer the detail's own
value and fall back to the entry baseline; the currency tries the detail's
own amount-currency attribute before the entry baseline, and the baseline is
the statement currency or, only when that is empty, the entry amount's own
currency attribute. -/
theorem c7_detail_preference (stmt : JVal) (currency : String) (ntry : JVal) (i : ℕ) :
    ((mapNtry stmt currency ntry)[i]?).map (fun t => (t.date, t.amount, t.currency)) =
    ((txArrOf ntry)[i]?).map
      (fun td => (specTxDate ntry td, specTxAmount ntry td, specTxCurrency currency ntry td)) := by
  rw [mapNtry_getElem, Option.map_map]
  cases h : (txArrOf ntry)[i]? with
  | none => rfl
  | some td =>
    have hf := mapTxDtls_fields stmt currency ntry td
    simp [Function.comp, hf.1, hf.2.1, hf.2.2]

theorem lastBalAmt_nil (c : String) (a : Option JNum) : lastBalAmt c [] a = a := rfl

theorem lastBalAmt_swap_distinct (p m q : List JVal) (x y : JVal)
    (hxy : ∀ c, hasCode c x = true → hasCode c y = false)
    (hothers : ∀ b, b ∈ p ++ m ++ q → ∀ c, hasCode c x = true ∨ hasCode c y = true →
      hasCode c b = false)
    (c : String) (init : Option JNum) :
    lastBalAmt c (p ++ x :: (m ++ y :: q)) init = lastBalAmt c (p ++ y :: (m ++ x :: q)) init := by
  have hsplit : ∀ (z w : JVal), lastBalAmt c (p ++ z :: (m ++ w :: q)) init =
      lastBalAmt c q (lastBalAmt c [w] (lastBalAmt c m (lastBalAmt c [z] (lastBalAmt c p init)))) := by
    intro z w
    rw [show p ++ z :: (m ++ w :: q) = p ++ ([z] ++ (m ++ ([w] ++ q))) by simp]
    rw [lastBalAmt_append, lastBalAmt_append, lastBalAmt_append, lastBalAmt_append]
  rw [hsplit, hsplit]
  by_cases hx : hasCode c x
  · have hy : hasCode c y = false := hxy c hx
    have hp : lastBalAmt c p init = init :=
      lastBalAmt_nomatch c p init (fun b hb => hothers b (by simp [hb]) c (Or.inl hx))
    have hm : ∀ a, lastBalAmt c m a = a := fun a =>
      lastBalAmt_nomatch c m a (fun b hb => hothers b (by simp [hb]) c (Or.inl hx))
    simp [lastBalAmt_cons, lastBalAmt_nil, hx, hy, hp, hm]
  · by_cases hy : hasCode c y
    · have hp : lastBalAmt c p init = init :=
        lastBalAmt_nomatch c p init (fun b hb => hothers b (by simp [hb]) c (Or.inr hy))
      have hm : ∀ a, lastBalAmt c m a = a := fun a =>
        lastBalAmt_nomatch c m a (fun b hb => hothers b (by simp [hb]) c (Or.inr hy))
      simp [lastBalAmt_cons, lastBalAmt_nil, hx, hy, hp, hm]
    · simp [lastBalAmt_cons, lastBalAmt_nil, hx, hy]

/-- C8 amended: (i) the resolved balances are exactly the last-match fold
over the balance blocks; (ii) swapping two balance blocks with distinct type
codes leaves both resolved balances unchanged, provided no other block in
the statement shares a code with either swapped block (with such a third
block the swap can change which same-coded block comes last, see the
counterexample); (iii) swapping two same-coded blocks makes the one at the
later position win, provided no block after that position carries the same
code. -/
theorem c8_balance_reordering :
    (∀ stmt : JVal, stmt ≠ JVal.null → ∀ idx, ∃ s, mapStatement stmt idx = Except.ok s ∧
      s.openingBalance = lastBalAmt "OPBD" (balListOf stmt) none ∧
      s.closingBalance = lastBalAmt "CLBD" (balListOf stmt) none) ∧
    (∀ (p m q : List JVal) (x y : JVal),
      (∀ c, hasCode c x = true → hasCode c y = false) →
      (∀ b, b ∈ p ++ m ++ q → ∀ c, hasCode c x = true ∨ hasCode c y = true →
        hasCode c b = false) →
      ∀ (c : String) (init : Option JNum),
        lastBalAmt c (p ++ x :: (m ++ y :: q)) init =
        lastBalAmt c (p ++ y :: (m ++ x :: q)) init) ∧
    (∀ (p m q : List JVal) (x y : JVal) (c : String),
      hasCode c x = true → hasCode c y = true → (∀ b ∈ q, hasCode c b = false) →
      lastBalAmt c (p ++ x :: (m ++ y :: q)) none = extractAmount (y.prop "Amt") ∧
      lastBalAmt c (p ++ y :: (m ++ x :: q)) none = extractAmount (x.prop "Amt")) := by
  refine ⟨?_, lastBalAmt_swap_distinct, ?_⟩
  · intro stmt h idx
    exact ⟨pureStatement stmt idx, mapStatement_eq stmt h idx, rfl, rfl⟩
  · intro p m q x y c hx hy hq
    have hsplit : ∀ (z w : JVal) (init : Option JNum),
        lastBalAmt c (p ++ z :: (m ++ w :: q)) init =
        lastBalAmt c q (lastBalAmt c [w] (lastBalAmt c m (lastBalAmt c [z] (lastBalAmt c p init)))) := by
      intro z w init
      rw [show p ++ z :: (m ++ w :: q) = p ++ ([z] ++ (m ++ ([w] ++ q))) by simp]
      rw [lastBalAmt_append, lastBalAmt_append, lastBalAmt_append, lastBalAmt_append]
    have hqe : ∀ a, lastBalAmt c q a = a := fun a => lastBalAmt_nomatch c q a hq
    constructor
    · rw [hsplit]
      simp [hqe, lastBalAmt_cons, lastBalAmt_nil, hy]
    · rw [hsplit]
      simp [hqe, lastBalAmt_cons, lastBalAmt_nil, hx]

/-- Balance block constructor for the C8 example statements. -/
def mkBal (code amt : String) : JVal := JVal.obj [
  ("Tp", JVal.obj [("CdOrPrtry", JVal.obj [("Cd", JVal.str code)])]),
  ("Amt", JVal.str amt)]

/-- C8 counterexample statement, original order: OPBD 1, OPBD 2, CLBD 5. -/
def c8Example1 : JVal := JVal.obj [("Bal", JVal.arr
  [mkBal "OPBD" "1", mkBal "OPBD" "2", mkBal "CLBD" "5"])]

/-- C8 counterexample statement after swapping the first and third blocks,
which carry distinct type codes: CLBD 5, OPBD 2, OPBD 1. -/
def c8Example2 : JVal := JVal.obj [("Bal", JVal.arr
  [mkBal "CLBD" "5", mkBal "OPBD" "2", mkBal "OPBD" "1"])]

/-- C8 counterexample: swapping two balance blocks with distinct type codes
(the first OPBD block and the CLBD block) changes the resolved opening
balance from 2 to 1, because a third block shares the OPBD code and the swap
changes which OPBD block comes last; the claim asserted such a swap never
changes the result. -/
theorem c8_counterexample :
    balCodeOf (mkBal "OPBD" "1") = JVal.str "OPBD" ∧
    balCodeOf (mkBal "CLBD" "5") = JVal.str "CLBD" ∧
    (mapStatement c8Example1 0).toOption.map (fun s => (s.openingBalance, s.closingBalance)) =
      some (some (JNum.fin 2 0), some (JNum.fin 5 0)) ∧
    (mapStatement c8Example2 0).toOption.map (fun s => (s.openingBalance, s.closingBalance)) =
      some (some (JNum.fin 1 0), some (JNum.fin 5 0)) ∧
    (some (JNum.fin 2 0) : Option JNum) ≠ some (JNum.fin 1 0) := by
  exact ⟨rfl, rfl, by decide, by decide, by decide⟩

/-- C9 counterexample: extractAmount on the truthy string "abc", whose
decimal parse finds no numeric prefix, returns NaN (a JavaScript number),
not absent; the claim said a failed decimal parse yields absent. -/
theorem c9_counterexample :
    extractAmount (JVal.str "abc") = some JNum.nan ∧
    parseFloat "abc" = JNum.nan ∧
    some JNum.nan ≠ (none : Option JNum) := by
  exact ⟨by decide, by decide, by decide⟩

/-- C9 amended: extractAmount accepts a non-empty string (fed to parseFloat)
or a value-holder object with truthy text content (its string image fed to
parseFloat, attributes ignored); it is absent exactly when the input is
null, the empty string, an array, or an object without truthy text content;
a non-empty string whose parse fails yields NaN rather than absent. The
original claim's clause that the parse preserves the source's declared
decimal precision with no rounding is dropped and not certified here: the
source's parseFloat returns an IEEE-754 double, which rounds
binary-unrepresentable decimals and overflows to Infinity, and this
embedding keeps the exact decimal instead (see `JNum`), so the clause is
false of the program and outside the model. This theorem asserts only the
shape dispatch and the absence/NaN behaviour. -/
theorem c9_extract_amount_shapes :
    (∀ s : String, s ≠ "" → extractAmount (JVal.str s) = some (parseFloat s)) ∧
    (∀ (fs : List (String × JVal)) (u : JVal), lookupField fs "_" = some u → u.truthy = true →
      extractAmount (JVal.obj fs) = some (parseFloat (stringOf u))) ∧
    (∀ v : JVal, extractAmount v = none ↔
      (v = JVal.null ∨ v = JVal.str "" ∨ (∃ es, v = JVal.arr es) ∨
       (∃ fs, v = JVal.obj fs ∧ ((lookupField fs "_").getD JVal.null).truthy = false))) := by
  refine ⟨?_, ?_, ?_⟩
  · intro s hs
    have he : ¬s.isEmpty = true := fun hh => hs ((String.isEmpty_iff s).mp hh)
    simp [extractAmount, he]
  · intro fs u hl ht
    simp [extractAmount, hl, ht]
  · intro v
    cases v with
    | null => simp [extractAmount]
    | str s =>
      by_cases he : s.isEmpty
      · rw [String.isEmpty_iff] at he
        subst he
        simp [extractAmount, String.isEmpty]
      · have h2 : ¬s = "" := fun hh => he ((String.isEmpty_iff s).mpr hh)
        simp [extractAmount, he, h2]
    | arr es => simp [extractAmount]
    | obj fs =>
      by_cases ht : ((lookupField fs "_").getD JVal.null).truthy
      · simp [extractAmount, ht]
      · simp [extractAmount, ht]

/-- C9 witness: the string "5" is a non-empty string, and its exact parse is
the scaled decimal 5. -/
theorem c9_witness : extractAmount (JVal.str "5") = some (parseFloat "5") :=
  c9_extract_amount_shapes.1 "5" (by decide)

/-- C10 counterexample tree: a transaction summary whose credit sub-block is
an empty element (the empty string, as xml2js parses an empty tag) and whose
debit sub-block is an object carrying only a total. -/
def c10Example : JVal := JVal.obj [("TxsSummry", JVal.obj [
  ("TtlCdtNtries", JVal.str ""),
  ("TtlDbtNtries", JVal.obj [("Sum", JVal.str "5.00")])])]

/-- C10 counterexample: the summary block contains a credit-entries
sub-block (present as an empty text node) lacking the count element; the
claim predicts numberOfCredits = 0 there, but the code yields null because
the empty node is falsy. The debit side of the same tree shows the 0-count
with total independently present for an object-shaped sub-block. -/
theorem c10_counterexample :
    (c10Example.prop "TxsSummry").prop "TtlCdtNtries" = JVal.str "" ∧
    get c10Example ["TxsSummry", "TtlCdtNtries", "NbOfNtries"] = JVal.null ∧
    (mapStatement c10Example 0).toOption.map
      (fun s => (s.numberOfCredits, s.numberOfDebits, s.totalDebits)) =
      some (none, some (JNum.fin 0 0), some (JNum.fin 500 (-2))) ∧
    (none : Option JNum) ≠ some (JNum.fin 0 0) := by
  exact ⟨rfl, rfl, by decide, by decide⟩

/-- C10 amended: the count is 0 (not absent) whenever the summary block and
the sub-block are both truthy (the sub-block an object or non-empty text)
and the count element is absent; the count and the total are absent when
the summary block or the sub-block is missing or an empty (falsy) node;
whenever summary and sub-block are truthy the total is resolved
independently of the count; the debit side is symmetric. -/
theorem c10_summary_counts (stmt : JVal) (h : stmt ≠ JVal.null) (idx : ℕ) :
    ∃ s, mapStatement stmt idx = Except.ok s ∧
      (((stmt.prop "TxsSummry").truthy = true ∧
        ((stmt.prop "TxsSummry").prop "TtlCdtNtries").truthy = true ∧
        get stmt ["TxsSummry", "TtlCdtNtries", "NbOfNtries"] = JVal.null) →
        s.numberOfCredits = some (JNum.fin 0 0)) ∧
      (¬((stmt.prop "TxsSummry").truthy = true ∧
         ((stmt.prop "TxsSummry").prop "TtlCdtNtries").truthy = true) →
        s.numberOfCredits = none ∧ s.totalCredits = none) ∧
      (((stmt.prop "TxsSummry").truthy = true ∧
        ((stmt.prop "TxsSummry").prop "TtlCdtNtries").truthy = true) →
        s.totalCredits = extractAmount (get stmt ["TxsSummry", "TtlCdtNtries", "Sum"])) ∧
      (((stmt.prop "TxsSummry").truthy = true ∧
        ((stmt.prop "TxsSummry").prop "TtlDbtNtries").truthy = true ∧
        get stmt ["TxsSummry", "TtlDbtNtries", "NbOfNtries"] = JVal.null) →
        s.numberOfDebits = some (JNum.fin 0 0)) ∧
      (¬((stmt.prop "TxsSummry").truthy = true ∧
         ((stmt.prop "TxsSummry").prop "TtlDbtNtries").truthy = true) →
        s.numberOfDebits = none ∧ s.totalDebits = none) ∧
      (((stmt.prop "TxsSummry").truthy = true ∧
        ((stmt.prop "TxsSummry").prop "TtlDbtNtries").truthy = true) →
        s.totalDebits = extractAmount (get stmt ["TxsSummry", "TtlDbtNtries", "Sum"])) := by
  refine ⟨pureStatement stmt idx, mapStatement_eq stmt h idx, ?_, ?_, ?_, ?_, ?_, ?_⟩
  · intro hc
    have hz : parseIntTen (stringOf (JVal.str "0")) = JNum.fin 0 0 := by decide
    simp [pureStatement, hc.1, hc.2.1, hc.2.2, jsNvl, hz]
  · intro hc
    have hb : ¬(((stmt.prop "TxsSummry").truthy &&
        ((stmt.prop "TxsSummry").prop "TtlCdtNtries").truthy) = true) := by
      rw [Bool.and_eq_true]
      exact hc
    constructor <;> simp [pureStatement, hb]
  · intro hc
    simp [pureStatement, hc.1, hc.2]
  · intro hc
    have hz : parseIntTen (stringOf (JVal.str "0")) = JNum.fin 0 0 := by decide
    simp [pureStatement, hc.1, hc.2.1, hc.2.2, jsNvl, hz]
  · intro hc
    have hb : ¬(((stmt.prop "TxsSummry").truthy &&
        ((stmt.prop "TxsSummry").prop "TtlDbtNtries").truthy) = true) := by
      rw [Bool.and_eq_true]
      exact hc
    constructor <;> simp [pureStatement, hb]
  · intro hc
    simp [pureStatement, hc.1, hc.2]

/-- C10 witness tree: statement whose summary carries both sub-blocks as
objects without counts. -/
def c10Witness : JVal := JVal.obj [("TxsSummry", JVal.obj [
  ("TtlCdtNtries", JVal.obj [("Sum", JVal.str "10.00")]),
  ("TtlDbtNtries", JVal.obj [("Sum", JVal.str "5.00")])])]

theorem c10_witness :
    ∃ s, mapStatement c10Witness 0 = Except.ok s ∧
      (((c10Witness.prop "TxsSummry").truthy = true ∧
        ((c10Witness.prop "TxsSummry").prop "TtlCdtNtries").truthy = true ∧
        get c10Witness ["TxsSummry", "TtlCdtNtries", "NbOfNtries"] = JVal.null) →
        s.numberOfCredits = some (JNum.fin 0 0)) ∧
      (¬((c10Witness.prop "TxsSummry").truthy = true ∧
         ((c10Witness.prop "TxsSummry").prop "TtlCdtNtries").truthy = true) →
        s.numberOfCredits = none ∧ s.totalCredits = none) ∧
      (((c10Witness.prop "TxsSummry").truthy = true ∧
        ((c10Witness.prop "TxsSummry").prop "TtlCdtNtries").truthy = true) →
        s.totalCredits = extractAmount (get c10Witness ["TxsSummry", "TtlCdtNtries", "Sum"])) ∧
      (((c10Witness.prop "TxsSummry").truthy = true ∧
        ((c10Witness.prop "TxsSummry").prop "TtlDbtNtries").truthy = true ∧
        get c10Witness ["TxsSummry", "TtlDbtNtries", "NbOfNtries"] = JVal.null) →
        s.numberOfDebits = some (JNum.fin 0 0)) ∧
      (¬((c10Witness.prop "TxsSummry").truthy = true ∧
         ((c10Witness.prop "TxsSummry").prop "TtlDbtNtries").truthy = true) →
        s.numberOfDebits = none ∧ s.totalDebits = none) ∧
      (((c10Witness.prop "TxsSummry").truthy = true ∧
        ((c10Witness.prop "TxsSummry").prop "TtlDbtNtries").truthy = true) →
        s.totalDebits = extractAmount (get c10Witness ["TxsSummry", "TtlDbtNtries", "Sum"])) :=
  c10_summary_counts c10Witness (fun h => JVal.noConfusion h) 0

/-- C3 witness inputs: a supported document and externals that accept it. -/
def c3Xml : String := "<Document xmlns=\"urn:iso:std:iso:20022:tech:xsd:camt.053.001.02\">"

/-- C3 witness tree: a well-formed document with one empty statement. -/
def c3Tree : JVal := JVal.obj [("Document", JVal.obj [("BkToCstmrStmt",
  JVal.obj [("Stmt", JVal.obj [("Id", JVal.str "S1")])])])]

theorem c3_witness :
    ((parseCamt053 (fun _ _ => true) (fun _ _ => "") (fun _ => c3Tree) c3Xml).toOption = none ↔
      c3Fatal (fun _ _ => true) (fun _ => c3Tree) c3Xml = true) ∧
    (∀ e, parseCamt053 (fun _ _ => true) (fun _ _ => "") (fun _ => c3Tree) c3Xml = .error e →
      e = "Unsupported or missing CAMT.053 namespace" ∨
      (∃ m, e = "XSD validation failed: " ++ m) ∨
      e = "Missing <Document> root" ∨ e = "Missing statement container" ∨
      e = "No <Stmt> found") :=
  c3_fatal_iff (fun _ _ => true) (fun _ _ => "") (fun _ => c3Tree) c3Xml (by decide)

theorem c8_witness :
    lastBalAmt "OPBD" ([] ++ mkBal "OPBD" "1" :: ([] ++ mkBal "CLBD" "5" :: [])) none =
    lastBalAmt "OPBD" ([] ++ mkBal "CLBD" "5" :: ([] ++ mkBal "OPBD" "1" :: [])) none :=
  c8_balance_reordering.2.1 [] [] [] (mkBal "OPBD" "1") (mkBal "CLBD" "5")
    (fun c hc => by
      have h1 : ("OPBD" : String) = c := of_decide_eq_true hc
      subst h1
      decide)
    (fun b hb _ _ => absurd hb (by simp))
    "OPBD" none
